import Mathlib

/-!
Shallow embedding of the egress/recording orchestration core of the
video-streaming backend (Services/livekit_egress.py and
Routers/egress_router.py).  Remote calls are modelled by outcome
functions (an `Except` per attempted call); wall-clock reads
(`datetime.now().strftime(...)`) are modelled by explicit timestamp
parameters, one per `now()` call site in the source.
-/

namespace Oni

/-- Track kinds from the remote media protocol (`TrackType`). -/
inductive TrackKind
| audio
| video
| data
deriving DecidableEq, Repr

/-- One published track of a participant: mute flag plus kind
(`participant.tracks` entries as used by the fan-out filter). -/
structure TrackInfo where
  muted : Bool
  kind : TrackKind
deriving DecidableEq, Repr

/-- A participant as returned by `list_participants`: identity and tracks. -/
structure ParticipantInfo where
  identity : String
  tracks : List TrackInfo
deriving DecidableEq, Repr

/-- The fields of the remote `EgressInfo` message that this code reads.
Timestamps are the server's raw nanosecond integers (0 = unset, matching
protobuf defaults). -/
structure EgressInfo where
  egress_id : String
  room_name : String
  status : Nat
  started_at : Nat
  ended_at : Nat
  error : String
deriving DecidableEq, Repr

/-- The all-defaults `EgressInfo` message: the unique value that is falsy
under Python protobuf truthiness (`if not info`). -/
def emptyEgressInfo : EgressInfo :=
  { egress_id := "", room_name := "", status := 0,
    started_at := 0, ended_at := 0, error := "" }

/-- Python `s.replace("//", "/")` on the character list of `s`:
left-to-right, non-overlapping, single pass (scanning resumes after each
replacement). -/
def collapseSlashes : List Char → List Char
  | '/' :: '/' :: rest => '/' :: collapseSlashes rest
  | c :: rest => c :: collapseSlashes rest
  | [] => []

/-- Whether a character list contains two adjacent path separators. -/
def hasDoubleSlash : List Char → Bool
  | a :: b :: rest => (a == '/' && b == '/') || hasDoubleSlash (b :: rest)
  | _ => false

/-- Whether a character list contains three adjacent path separators. -/
def hasTripleSlash : List Char → Bool
  | a :: b :: c :: rest =>
      (a == '/' && b == '/' && c == '/') || hasTripleSlash (b :: c :: rest)
  | _ => false

/-- `LiveKitEgressService._file_output`, restricted to the file path it
computes: `f"{prefix}/{filename}".replace("//", "/")` when the prefix is
truthy (non-empty, non-None), else the bare file name. -/
def fileOutputPath (pfx : Option String) (filename : String) : String :=
  match pfx with
  | some p => if p = "" then filename else ⟨collapseSlashes (p ++ "/" ++ filename).data⟩
  | none => filename

/-- Python `a or b` for strings: `b` when `a` is falsy (empty). -/
def orElseStr (a b : String) : String := if a = "" then b else a

/-- Decimal digit characters of `n`, most significant first (the digits a
zero-padded `strftime` field renders). -/
def natDigits (n : Nat) : List Char :=
  if h : n < 10 then [Char.ofNat (48 + n)]
  else natDigits (n / 10) ++ [Char.ofNat (48 + n % 10)]
decreasing_by
  exact Nat.div_lt_self (by omega) (by omega)

/-- A decimal field zero-padded on the left to width `w` (`%02d`, `%04d`-style
rendering used by `strftime`). -/
def padNum (w n : Nat) : List Char :=
  List.replicate (w - (natDigits n).length) '0' ++ natDigits n

/-- `datetime.now(LOCAL_TZ).strftime("%Y%m%d_%H%M%S")` applied to clock
components: four-digit year, two-digit month/day, an underscore, then
two-digit hour/minute/second. -/
def formatTimestamp (y mo d h mi s : Nat) : String :=
  ⟨padNum 4 y ++ padNum 2 mo ++ padNum 2 d ++ '_' ::
    (padNum 2 h ++ padNum 2 mi ++ padNum 2 s)⟩

/-- `record_room`'s file name:
`filename or f"room_{room_name}_{now}.mp4"` — Python `or` treats both a
missing name and an explicitly empty one as falsy, falling back to the
generated timestamped name. The `now()` sample is the `ts` parameter. -/
def record_roomFilename (roomName : String) (filename : Option String) (ts : String) : String :=
  orElseStr (filename.getD "") ("room_" ++ roomName ++ "_" ++ ts ++ ".mp4")

/-- `record_room`'s output path: its file name under the fixed `"Rooms"`
segment (`prefix=file_prefix or room_name` with `file_prefix = "Rooms"`). -/
def record_roomPath (roomName : String) (filename : Option String) (ts : String) : String :=
  fileOutputPath (some (orElseStr "Rooms" roomName)) (record_roomFilename roomName filename ts)

/-- `record_participant`'s file name:
`f"participant_{identity}_{room_name}_{now}.mp4"`. -/
def record_participantFilename (roomName identity ts : String) : String :=
  "participant_" ++ identity ++ "_" ++ roomName ++ "_" ++ ts ++ ".mp4"

/-- `record_participant`'s output path, under the fixed `"Participants"`
segment. -/
def record_participantPath (roomName identity ts : String) : String :=
  fileOutputPath (some (orElseStr "Participants" roomName)) (record_participantFilename roomName identity ts)

/-- The fan-out filter's per-participant count of unmuted audio/video tracks
(`active_tracks` in `record_all_emitters`). -/
def activeTrackCount (p : ParticipantInfo) : Nat :=
  (p.tracks.filter fun t => !t.muted && (t.kind == TrackKind.audio || t.kind == TrackKind.video)).length

/-- The participants for which `record_all_emitters` issues a start request:
those not skipped by `if len(active_tracks) < min_tracks: continue`. -/
def qualifyingParticipants (minTracks : Nat) (parts : List ParticipantInfo) : List ParticipantInfo :=
  parts.filter fun p => decide (minTracks ≤ activeTrackCount p)

/-- `record_all_emitters`'s file name for one participant:
`f"participant_{room_name}_{participant.identity}_{now}.mp4"` (room before
identity, unlike `record_participant`). -/
def emitterFilename (roomName identity ts : String) : String :=
  "participant_" ++ roomName ++ "_" ++ identity ++ "_" ++ ts ++ ".mp4"

/-- `record_all_emitters`'s output path for one participant: its file name
under the room name used as prefix. -/
def emitterPath (roomName identity ts : String) : String :=
  fileOutputPath (some roomName) (emitterFilename roomName identity ts)

/-- The batch of output paths `record_all_emitters` requests, one per
qualifying participant; `tsOf` gives the `now()` sample taken while building
that participant's request. -/
def record_all_emittersPaths (roomName : String) (minTracks : Nat)
    (parts : List ParticipantInfo) (tsOf : String → String) : List String :=
  (qualifyingParticipants minTracks parts).map fun p => emitterPath roomName p.identity (tsOf p.identity)

/-- `record_all_emitters` (and `record_all_emitters2`, identical up to paths):
start one participant egress per qualifying participant, split the gathered
outcomes into successes (`EgressInfo`s, returned) and failures (logged).
`start` is each attempted remote `start_participant_egress` outcome. -/
def record_all_emittersFull (minTracks : Nat) (parts : List ParticipantInfo)
    (start : String → Except String EgressInfo) : List EgressInfo × List String :=
  (((qualifyingParticipants minTracks parts).map fun p => start p.identity).filterMap
      Except.toOption,
   ((qualifyingParticipants minTracks parts).map fun p => start p.identity).filterMap
      fun r => match r with | .error e => some e | .ok _ => none)

/-- The handle list `record_all_emitters` returns (successes only). -/
def record_all_emitters (minTracks : Nat) (parts : List ParticipantInfo)
    (start : String → Except String EgressInfo) : List EgressInfo :=
  (record_all_emittersFull minTracks parts start).1

/-- The session segment both `full record` branches interpolate:
`f"full/{room_name}_{now}"` with `now()` sampled at that interpolation. -/
def fullSessionSegment (roomName ts : String) : String :=
  "full/" ++ roomName ++ "_" ++ ts

/-- `record_room2`'s output path: `tsPfx` and `tsName` are the two separate
`now()` samples taken for the prefix and the file name. -/
def record_room2Path (roomName tsPfx tsName : String) : String :=
  fileOutputPath (some (fullSessionSegment roomName tsPfx))
    ("room_" ++ roomName ++ "_" ++ tsName ++ ".mp4")

/-- `record_all_emitters2`'s output path for one participant; again two
independent `now()` samples per participant (file name, then prefix). -/
def emitter2Path (roomName identity tsName tsPfx : String) : String :=
  fileOutputPath (some (fullSessionSegment roomName tsPfx))
    (emitterFilename roomName identity tsName)

/-- The batch of output paths `record_all_emitters2` requests, with
per-participant clock samples `tsName`/`tsPfx`. -/
def record_all_emitters2Paths (roomName : String) (minTracks : Nat)
    (parts : List ParticipantInfo) (tsName tsPfx : String → String) : List String :=
  (qualifyingParticipants minTracks parts).map fun p =>
    emitter2Path roomName p.identity (tsName p.identity) (tsPfx p.identity)

/-- All output paths one `full_record` call requests: the room-composite
branch's path and the fan-out branch's paths. -/
def full_recordPaths (roomName : String) (minTracks : Nat) (parts : List ParticipantInfo)
    (roomTsPfx roomTsName : String) (tsName tsPfx : String → String) :
    String × List String :=
  (record_room2Path roomName roomTsPfx roomTsName,
   record_all_emitters2Paths roomName minTracks parts tsName tsPfx)

/-- `full_record`: `asyncio.gather` of the room-composite branch and the
fan-out branch without `return_exceptions`, so an exception in either branch
propagates; on success, the id of the room handle and the ids of the
successful participant handles. -/
def full_record (roomOutcome : Except String EgressInfo)
    (emittersOutcome : Except String (List EgressInfo)) :
    Except String (List String × List String) :=
  match roomOutcome with
  | .error e => .error e
  | .ok r =>
    match emittersOutcome with
    | .error e => .error e
    | .ok es => .ok ([r.egress_id], es.map fun i => i.egress_id)

/-- An HTTP endpoint outcome: a successful body or an `HTTPException`. -/
inductive HttpResult (α : Type)
| ok (value : α)
| httpError (code : Nat) (detail : String)
deriving DecidableEq, Repr

/-- `full_record_endpoint`: any exception from `full_record` becomes a 500. -/
def full_record_endpoint (roomOutcome : Except String EgressInfo)
    (emittersOutcome : Except String (List EgressInfo)) :
    HttpResult (List String × List String) :=
  match full_record roomOutcome emittersOutcome with
  | .ok v => .ok v
  | .error e => .httpError 500 e

/-- The response shape `EgressInfoResponse` of the router (timestamps kept as
the raw nanosecond values whose zone-local ISO rendering the router
performs). -/
structure EgressInfoResponse where
  egress_id : String
  room_name : Option String
  status : Option Nat
  started_at : Option Nat
  ended_at : Option Nat
  error : Option String
  message : Option String
deriving DecidableEq, Repr

/-- `info_to_response`: copy the remote record's fields; a zero (unset)
timestamp renders as null (`if getattr(info, "started_at", None):`). -/
def info_to_response (i : EgressInfo) : EgressInfoResponse :=
  { egress_id := i.egress_id
    room_name := some i.room_name
    status := some i.status
    started_at := if i.started_at = 0 then none else some i.started_at
    ended_at := if i.ended_at = 0 then none else some i.ended_at
    error := some i.error
    message := none }

/-- Outcome of the remote `stop_egress` call as the router discriminates it:
success, a `TwirpError` with its code, or any other exception. -/
inductive StopOutcome
| ok (info : EgressInfo)
| twirpErr (code msg : String)
| otherErr (msg : String)
deriving DecidableEq, Repr

/-- `stop_recording_endpoint`: stop one egress; on a `failed_precondition`
`TwirpError`, fall back to the full egress list (`allRecordings`), return the
matching record annotated as already finished, or 404 when absent; any other
exception becomes a 500; a falsy (all-default) success message becomes a
404. -/
def stop_recording_endpoint (egress_id : String) (stopRes : StopOutcome)
    (allRecordings : List EgressInfo) : HttpResult EgressInfoResponse :=
  match stopRes with
  | .ok info =>
    if info = emptyEgressInfo then .httpError 404 "Egress no encontrado"
    else .ok { info_to_response info with message := some "Grabación detenida correctamente" }
  | .twirpErr code msg =>
    if code = "failed_precondition" then
      match allRecordings.find? (fun r => r.egress_id == egress_id) with
      | some existing =>
        .ok { info_to_response existing with message := some "La grabación ya estaba finalizada" }
      | none => .httpError 404 ("Egress " ++ egress_id ++ " no encontrado")
    else .httpError 500 msg
  | .otherErr msg => .httpError 500 msg

/-- The response shape `StopRecordingsResponse` of the stop-many endpoint. -/
structure StopRecordingsResponse where
  egress_id : String
  status : Option Nat
  error : Option String
  message : Option String
deriving DecidableEq, Repr

/-- `stop_one` inside `stop_recordings_by_ids`: a per-id stop that never
raises — success yields status plus message, failure yields the stringified
exception in `error`. -/
def stop_one (stopOutcome : String → Except String EgressInfo)
    (egress_id : String) : StopRecordingsResponse :=
  match stopOutcome egress_id with
  | .ok info =>
    { egress_id := egress_id, status := some info.status,
      error := none, message := some "Grabación detenida correctamente" }
  | .error e =>
    { egress_id := egress_id, status := none, error := some e, message := none }

/-- `stop_recordings_by_ids`: `all_ids = payload.room + payload.participants`,
one `stop_one` task per id, gathered in task order. -/
def stop_recordings_by_ids (room participants : List String)
    (stopOutcome : String → Except String EgressInfo) : List StopRecordingsResponse :=
  (room ++ participants).map (stop_one stopOutcome)

/-- The directory part of a path: everything before the last separator
(the storage folder a recorded file lands in). -/
def dirOf (s : String) : String :=
  ⟨(((s.data.reverse).dropWhile fun c => c != '/').drop 1).reverse⟩

/-- No path separator occurs in the character list. -/
def noSlash (l : List Char) : Bool := l.all fun c => c != '/'

/-- The file-name template as the specification words it:
`{kind-tag}_{room}[_{identity}]_{timestamp}.{ext}` — the room name before
the optional identity. Stated from the spec for comparison against the
source's name builders. -/
def specFilenameTemplate (kindTag room : String) (identity : Option String)
    (ts ext : String) : String :=
  kindTag ++ "_" ++ room ++
    (match identity with | some i => "_" ++ i | none => "") ++ "_" ++ ts ++ "." ++ ext

/-- A two-participant room in which only "alice" has an unmuted
audio/video track. -/
def partsW : List ParticipantInfo :=
  [{ identity := "alice", tracks := [{ muted := false, kind := TrackKind.audio }] },
   { identity := "bob",
     tracks := [{ muted := true, kind := TrackKind.audio },
                { muted := false, kind := TrackKind.data }] }]

/-- A remote-start outcome succeeding only for "alice". -/
def startW : String → Except String EgressInfo := fun id =>
  if id = "alice" then .ok { egress_id := "EG_1", room_name := "studio", status := 1,
                             started_at := 0, ended_at := 0, error := "" }
  else .error "unreachable"

/-- A remote-start outcome failing for everyone. -/
def startFailW : String → Except String EgressInfo := fun _ => .error "remote down"

/-- A sample remote egress record. -/
def recW : EgressInfo :=
  { egress_id := "EG_7", room_name := "studio", status := 3,
    started_at := 5, ended_at := 0, error := "" }

/-- Two participants whose identities differ only by a doubled separator. -/
def partsSlashC : List ParticipantInfo :=
  [{ identity := "a//b", tracks := [{ muted := false, kind := TrackKind.audio }] },
   { identity := "a/b", tracks := [{ muted := false, kind := TrackKind.video }] }]

/-- Two participants with distinct separator-free identities. -/
def partsD : List ParticipantInfo :=
  [{ identity := "ana", tracks := [{ muted := false, kind := TrackKind.audio }] },
   { identity := "ben", tracks := [{ muted := false, kind := TrackKind.video }] }]

/-- A single emitting participant. -/
def partsC2 : List ParticipantInfo :=
  [{ identity := "p", tracks := [{ muted := false, kind := TrackKind.audio }] }]

example : fileOutputPath (some "Rooms") "//x" = "Rooms//x" := by decide
example : fileOutputPath (some "a") "b.mp4" = "a/b.mp4" := by decide
example : ("ab" ++ "cd" : String).data = "ab".data ++ "cd".data := by decide
example : dirOf "full/r_1/x.mp4" = "full/r_1" := by decide

lemma hds_cons (c : Char) (l : List Char) :
    hasDoubleSlash (c :: l) =
      (((c == '/') && l.head?.any fun d => d == '/') || hasDoubleSlash l) := by
  cases l <;> simp [hasDoubleSlash]

lemma hds_tail {c : Char} {l : List Char} (h : hasDoubleSlash (c :: l) = false) :
    hasDoubleSlash l = false := by
  rw [hds_cons] at h
  exact (Bool.or_eq_false_iff.mp h).2

lemma hts_tail {c : Char} {l : List Char} (h : hasTripleSlash (c :: l) = false) :
    hasTripleSlash l = false := by
  match l with
  | [] => rfl
  | [_] => rfl
  | a :: b :: r =>
    simp only [hasTripleSlash, Bool.or_eq_false_iff] at h ⊢
    exact h.2

lemma noSlash_hds {l : List Char} (h : noSlash l = true) : hasDoubleSlash l = false := by
  induction l with
  | nil => rfl
  | cons c t ih =>
    simp only [noSlash, List.all_cons, Bool.and_eq_true] at h
    rw [hds_cons, ih (by simpa [noSlash] using h.2)]
    have : (c == '/') = false := by simpa using h.1
    simp [this]

lemma hds_append {a : List Char} (r : List Char) (ha : noSlash a = true) :
    hasDoubleSlash (a ++ r) = hasDoubleSlash r := by
  induction a with
  | nil => rfl
  | cons c t ih =>
    simp only [noSlash, List.all_cons, Bool.and_eq_true] at ha
    rw [List.cons_append, hds_cons, ih (by simpa [noSlash] using ha.2)]
    have : (c == '/') = false := by simpa using ha.1
    simp [this]

lemma hds_slash_cons_of {f : List Char} (h1 : hasDoubleSlash f = false)
    (h2 : (f.head?.any fun d => d == '/') = false) :
    hasDoubleSlash ('/' :: f) = false := by
  rw [hds_cons, h1, h2]
  simp

lemma noSlash_slash_cons {f : List Char} (hf : noSlash f = true) :
    hasDoubleSlash ('/' :: f) = false := by
  refine hds_slash_cons_of (noSlash_hds hf) ?_
  cases f with
  | nil => rfl
  | cons c t =>
    simp only [noSlash, List.all_cons, Bool.and_eq_true] at hf
    simpa using hf.1

lemma hds_structured {a b c : List Char} (ha : noSlash a = true) (hb : noSlash b = true)
    (hc : noSlash c = true) (hbne : b ≠ []) :
    hasDoubleSlash (a ++ '/' :: (b ++ '/' :: c)) = false := by
  rw [hds_append _ ha, hds_cons]
  cases b with
  | nil => exact absurd rfl hbne
  | cons b0 bt =>
    simp only [noSlash, List.all_cons, Bool.and_eq_true] at hb
    have h0 : (b0 == '/') = false := by simpa using hb.1
    have ht : hasDoubleSlash (b0 :: bt ++ '/' :: c) = false := by
      rw [List.cons_append, hds_cons, hds_append _ (by simpa [noSlash] using hb.2),
        noSlash_slash_cons hc, h0]
      simp
    rw [ht, List.cons_append]
    simp [h0]

lemma hds_structured' {a b c : List Char} (ha : noSlash a = true) (hb : noSlash b = true)
    (hc : noSlash c = true) (hbne : b ≠ []) :
    hasDoubleSlash ((a ++ '/' :: b) ++ '/' :: c) = false := by
  rw [List.append_assoc, List.cons_append]
  exact hds_structured ha hb hc hbne

lemma collapse_head? (l : List Char) : (collapseSlashes l).head? = l.head? := by
  rw [collapseSlashes.eq_def]
  split <;> simp

lemma collapse_cons_of_guard {c : Char} {rest : List Char}
    (h : ∀ r, c = '/' → rest = '/' :: r → False) :
    collapseSlashes (c :: rest) = c :: collapseSlashes rest := by
  rw [collapseSlashes.eq_def]
  split
  · next r heq =>
    rw [List.cons.injEq] at heq
    obtain ⟨hc, hr⟩ := heq
    exact absurd hr (fun hr => h r hc hr)
  · next c2 r2 heq =>
    rw [List.cons.injEq] at heq
    obtain ⟨hc, hr⟩ := heq
    rw [hc, hr]
  · next heq => simp at heq

lemma collapse_eq_self {l : List Char} (h : hasDoubleSlash l = false) :
    collapseSlashes l = l := by
  induction l using collapseSlashes.induct with
  | case1 rest ih =>
    exfalso
    simp [hasDoubleSlash] at h
  | case2 c rest hguard ih =>
    rw [collapse_cons_of_guard hguard, ih (hds_tail h)]
  | case3 => rfl

lemma hts_cons3 (a b c : Char) (r : List Char) :
    hasTripleSlash (a :: b :: c :: r) =
      (((a == '/') && (b == '/') && (c == '/')) || hasTripleSlash (b :: c :: r)) := rfl

lemma hds_collapse_of_no_triple {l : List Char} (h : hasTripleSlash l = false) :
    hasDoubleSlash (collapseSlashes l) = false := by
  induction l using collapseSlashes.induct with
  | case1 rest ih =>
    have hcoll : collapseSlashes ('/' :: '/' :: rest) = '/' :: collapseSlashes rest := by
      rw [collapseSlashes.eq_def]
      rfl
    rw [hcoll, hds_cons]
    cases rest with
    | nil => rfl
    | cons a r =>
      rw [hts_cons3, Bool.or_eq_false_iff] at h
      have ha : (a == '/') = false := by simpa using h.1
      have hrec : hasDoubleSlash (collapseSlashes (a :: r)) = false :=
        ih (hts_tail h.2)
      rw [hrec, collapse_head?]
      simp [ha]
  | case2 c rest hguard ih =>
    rw [collapse_cons_of_guard hguard, hds_cons, collapse_head?,
      ih (hts_tail h)]
    by_cases hc' : c = '/'
    · have hhead : (rest.head?.any fun d => d == '/') = false := by
        cases rest with
        | nil => rfl
        | cons d r =>
          have hd : d ≠ '/' := fun hd => hguard r hc' (by rw [hd])
          simpa using hd
      simp [hhead]
    · have hc : (c == '/') = false := by simpa using hc'
      simp [hc]
  | case3 => rfl

lemma dropWhile_append_of_all {p : Char → Bool} {a : List Char} (r : List Char)
    (ha : ∀ x ∈ a, p x = true) :
    List.dropWhile p (a ++ r) = List.dropWhile p r := by
  induction a with
  | nil => rfl
  | cons c t ih =>
    rw [List.cons_append, List.dropWhile_cons, if_pos (ha c (by simp))]
    exact ih fun x hx => ha x (by simp [hx])

lemma dirOf_data {s : String} {pre f : List Char} (h : s.data = pre ++ '/' :: f)
    (hf : noSlash f = true) : dirOf s = ⟨pre⟩ := by
  unfold dirOf
  rw [h]
  have h1 : (pre ++ '/' :: f).reverse = f.reverse ++ '/' :: pre.reverse := by
    rw [List.reverse_append, List.reverse_cons, List.append_assoc, List.singleton_append]
  rw [h1, dropWhile_append_of_all _ (fun x hx => by
    simp only [List.mem_reverse] at hx
    simp only [noSlash, List.all_eq_true] at hf
    exact hf x hx)]
  rw [List.dropWhile_cons]
  simp

lemma slash_data : ("/" : String).data = ['/'] := rfl

lemma uscore_data : ("_" : String).data = ['_'] := rfl

lemma strCat_data (p f : String) : (p ++ "/" ++ f).data = p.data ++ '/' :: f.data := by
  simp [String.data_append, slash_data]

lemma noSlash_append {a b : List Char} : noSlash (a ++ b) = (noSlash a && noSlash b) :=
  List.all_append

lemma fileOutputPath_data {p : String} (f : String) (hp : p ≠ "") :
    (fileOutputPath (some p) f).data = collapseSlashes (p.data ++ '/' :: f.data) := by
  show (if p = "" then f else (⟨collapseSlashes (p ++ "/" ++ f).data⟩ : String)).data = _
  rw [if_neg hp, strCat_data]

lemma fileOutputPath_data_of_no_double {p : String} (f : String) (hp : p ≠ "")
    (h : hasDoubleSlash (p.data ++ '/' :: f.data) = false) :
    (fileOutputPath (some p) f).data = p.data ++ '/' :: f.data := by
  rw [fileOutputPath_data f hp, collapse_eq_self h]

lemma emitterFilename_data (room id ts : String) :
    (emitterFilename room id ts).data =
      "participant_".data ++ (room.data ++ ('_' ::
        (id.data ++ ('_' :: (ts.data ++ ".mp4".data))))) := by
  simp [emitterFilename, String.data_append, uscore_data]

lemma emitterFilename_noSlash {room id ts : String} (hroom : noSlash room.data = true)
    (hid : noSlash id.data = true) (hts : noSlash ts.data = true) :
    noSlash (emitterFilename room id ts).data = true := by
  rw [emitterFilename_data]
  simp only [noSlash, List.all_append, List.all_cons, Bool.and_eq_true] at *
  refine ⟨by decide, hroom, by decide, hid, by decide, hts, by decide⟩

lemma emitterPath_data {room id ts : String} (hne : room ≠ "")
    (hroom : noSlash room.data = true) (hid : noSlash id.data = true)
    (hts : noSlash ts.data = true) :
    (emitterPath room id ts).data = room.data ++ '/' :: (emitterFilename room id ts).data := by
  refine fileOutputPath_data_of_no_double _ hne ?_
  rw [hds_append _ hroom]
  exact noSlash_slash_cons (emitterFilename_noSlash hroom hid hts)

lemma emitterFilename_inj {room id1 id2 ts1 ts2 : String}
    (hlen : ts1.data.length = ts2.data.length)
    (h : emitterFilename room id1 ts1 = emitterFilename room id2 ts2) : id1 = id2 := by
  have hd := congrArg String.data h
  rw [emitterFilename_data, emitterFilename_data] at hd
  have h1 := List.append_cancel_left hd
  have h2 := List.append_cancel_left h1
  have h3 : id1.data ++ ('_' :: (ts1.data ++ ".mp4".data)) =
      id2.data ++ ('_' :: (ts2.data ++ ".mp4".data)) := by
    injection h2
  have hlen2 : ('_' :: (ts1.data ++ ".mp4".data)).length =
      ('_' :: (ts2.data ++ ".mp4".data)).length := by
    simp [hlen]
  exact String.ext (List.append_inj' h3 hlen2).1

lemma emitterPath_inj {room id1 id2 ts1 ts2 : String} (hne : room ≠ "")
    (hroom : noSlash room.data = true) (hid1 : noSlash id1.data = true)
    (hid2 : noSlash id2.data = true) (hts1 : noSlash ts1.data = true)
    (hts2 : noSlash ts2.data = true) (hlen : ts1.data.length = ts2.data.length)
    (hids : id1 ≠ id2) :
    emitterPath room id1 ts1 ≠ emitterPath room id2 ts2 := by
  intro h
  have hd := congrArg String.data h
  rw [emitterPath_data hne hroom hid1 hts1, emitterPath_data hne hroom hid2 hts2] at hd
  have h1 := List.append_cancel_left hd
  have h2 : (emitterFilename room id1 ts1).data = (emitterFilename room id2 ts2).data := by
    injection h1
  exact hids (emitterFilename_inj hlen (String.ext h2))

lemma fullSessionSegment_data (room ts : String) :
    (fullSessionSegment room ts).data =
      "full".data ++ '/' :: (room.data ++ '_' :: ts.data) := by
  have h5 : ("full/" : String).data = "full".data ++ ['/'] := rfl
  simp [fullSessionSegment, String.data_append, uscore_data, h5]

lemma fullSessionSegment_ne (room ts : String) : fullSessionSegment room ts ≠ "" := by
  intro h
  have hd := congrArg String.data h
  rw [fullSessionSegment_data] at hd
  have h4 : ("full" : String).data = ['f', 'u', 'l', 'l'] := rfl
  rw [h4] at hd
  simp at hd

lemma full_path_dirOf {room tp : String} (f : String)
    (hroom : noSlash room.data = true) (htp : noSlash tp.data = true)
    (hf : noSlash f.data = true) :
    dirOf (fileOutputPath (some (fullSessionSegment room tp)) f) =
      fullSessionSegment room tp := by
  have hne := fullSessionSegment_ne room tp
  have hmid : noSlash (room.data ++ '_' :: tp.data) = true := by
    rw [noSlash_append, Bool.and_eq_true]
    refine ⟨hroom, ?_⟩
    simp only [noSlash, List.all_cons, Bool.and_eq_true]
    exact ⟨by decide, htp⟩
  have hmidne : room.data ++ '_' :: tp.data ≠ [] := by
    apply List.ne_nil_of_length_pos
    simp
  have hds : hasDoubleSlash ((fullSessionSegment room tp).data ++ '/' :: f.data) = false := by
    rw [fullSessionSegment_data]
    refine hds_structured' ?_ hmid hf hmidne
    decide
  have hdata := fileOutputPath_data_of_no_double f hne hds
  exact dirOf_data hdata hf

lemma room2Filename_noSlash {room t : String} (hroom : noSlash room.data = true)
    (ht : noSlash t.data = true) :
    noSlash ("room_" ++ room ++ "_" ++ t ++ ".mp4" : String).data = true := by
  simp only [String.data_append, noSlash, List.all_append, Bool.and_eq_true]
  exact ⟨⟨⟨⟨by decide, hroom⟩, by decide⟩, ht⟩, by decide⟩

lemma length_filterMap_of_all_some {α β : Type} {f : α → Option β} {l : List α}
    (h : ∀ a ∈ l, (f a).isSome = true) : (l.filterMap f).length = l.length := by
  induction l with
  | nil => rfl
  | cons a t ih =>
    have ha := h a (by simp)
    rw [List.filterMap_cons]
    cases hs : f a with
    | none => rw [hs] at ha; simp at ha
    | some v =>
      simp only [List.length_cons]
      rw [ih fun q hq => h q (by simp [hq])]

lemma natDigits_length_le : ∀ n w : Nat, 1 ≤ w → n < 10 ^ w → (natDigits n).length ≤ w := by
  intro n
  induction n using Nat.strong_induction_on with
  | _ n ih =>
    intro w hw hn
    by_cases h10 : n < 10
    · rw [natDigits.eq_def, dif_pos h10]
      simpa using hw
    · rw [natDigits.eq_def, dif_neg h10, List.length_append]
      have hw2 : 1 ≤ w - 1 := by
        rcases w with _ | _ | w'
        · omega
        · exfalso
          simp at hn
          omega
        · omega
      have hdiv : n / 10 < 10 ^ (w - 1) := by
        apply Nat.div_lt_of_lt_mul
        have hpow : 10 * 10 ^ (w - 1) = 10 ^ w := by
          rw [← pow_succ']
          congr 1
          omega
        omega
      have := ih (n / 10) (Nat.div_lt_self (by omega) (by omega)) (w - 1) hw2 hdiv
      simp only [List.length_cons, List.length_nil]
      omega

lemma natDigits_all_digit : ∀ n : Nat, ∀ c ∈ natDigits n, c.isDigit = true := by
  intro n
  induction n using Nat.strong_induction_on with
  | _ n ih =>
    intro c hc
    by_cases h10 : n < 10
    · rw [natDigits.eq_def, dif_pos h10] at hc
      simp only [List.mem_singleton] at hc
      subst hc
      interval_cases n <;> decide
    · rw [natDigits.eq_def, dif_neg h10, List.mem_append] at hc
      rcases hc with hc | hc
      · exact ih (n / 10) (Nat.div_lt_self (by omega) (by omega)) c hc
      · simp only [List.mem_singleton] at hc
        subst hc
        have h9 : n % 10 < 10 := Nat.mod_lt _ (by omega)
        interval_cases hk : (n % 10) <;> decide

lemma padNum_length {w n : Nat} (hw : 1 ≤ w) (h : n < 10 ^ w) : (padNum w n).length = w := by
  rw [padNum, List.length_append, List.length_replicate]
  have := natDigits_length_le n w hw h
  omega

lemma padNum_all_digit {w n : Nat} : ∀ c ∈ padNum w n, c.isDigit = true := by
  intro c hc
  rw [padNum, List.mem_append] at hc
  rcases hc with hc | hc
  · rw [List.eq_of_mem_replicate hc]
    decide
  · exact natDigits_all_digit n c hc

lemma padNum_countP {w n : Nat} (hw : 1 ≤ w) (h : n < 10 ^ w) :
    (padNum w n).countP (fun c => c.isDigit) = w := by
  rw [List.countP_eq_length.mpr padNum_all_digit]
  exact padNum_length hw h

lemma mem_of_qualifying {minTracks : Nat} {parts : List ParticipantInfo}
    {p : ParticipantInfo} (hp : p ∈ qualifyingParticipants minTracks parts) :
    p ∈ parts ∧ minTracks ≤ activeTrackCount p := by
  rw [qualifyingParticipants, List.mem_filter] at hp
  exact ⟨hp.1, by simpa using hp.2⟩

/-- C1: the emitter fan-out starts a participant egress only for the
participants with at least `min_tracks` unmuted audio/video tracks — its
result does not depend on the start outcomes of the other participants —
and when every qualifying start succeeds it returns exactly as many handles
as there are qualifying participants. -/
theorem record_all_emitters_exact_fanout (minTracks : Nat) (parts : List ParticipantInfo)
    (start : String → Except String EgressInfo)
    (hok : ∀ p ∈ parts, minTracks ≤ activeTrackCount p →
      ((start p.identity).toOption).isSome = true) :
    (record_all_emitters minTracks parts start).length =
      parts.countP (fun p => decide (minTracks ≤ activeTrackCount p)) ∧
    ∀ start2 : String → Except String EgressInfo,
      (∀ p ∈ parts, minTracks ≤ activeTrackCount p → start2 p.identity = start p.identity) →
      record_all_emittersFull minTracks parts start2 =
        record_all_emittersFull minTracks parts start := by
  constructor
  · rw [record_all_emitters, record_all_emittersFull]
    simp only
    rw [List.filterMap_map, length_filterMap_of_all_some, qualifyingParticipants,
      ← List.countP_eq_length_filter]
    intro p hp
    have h := mem_of_qualifying hp
    exact hok p h.1 h.2
  · intro start2 h2
    rw [record_all_emittersFull, record_all_emittersFull]
    have hmap : (qualifyingParticipants minTracks parts).map (fun p => start2 p.identity) =
        (qualifyingParticipants minTracks parts).map (fun p => start p.identity) := by
      apply List.map_congr_left
      intro p hp
      have h := mem_of_qualifying hp
      exact h2 p h.1 h.2
    rw [hmap]

theorem record_all_emitters_exact_fanout_witness :
    (record_all_emitters 1 partsW startW).length =
      partsW.countP (fun p => decide (1 ≤ activeTrackCount p)) :=
  (record_all_emitters_exact_fanout 1 partsW startW (by decide)).1

/-- C7: when every attempted participant-egress start fails, the fan-out
returns the empty handle list (not an error) and collects one logged error
per attempted (qualifying) participant. -/
theorem record_all_emitters_all_fail_empty (minTracks : Nat) (parts : List ParticipantInfo)
    (start : String → Except String EgressInfo)
    (hfail : ∀ p ∈ parts, minTracks ≤ activeTrackCount p →
      (start p.identity).toOption = none) :
    record_all_emitters minTracks parts start = [] ∧
    (record_all_emittersFull minTracks parts start).2.length =
      parts.countP (fun p => decide (minTracks ≤ activeTrackCount p)) := by
  constructor
  · rw [record_all_emitters, record_all_emittersFull]
    simp only
    rw [List.filterMap_map, List.filterMap_eq_nil_iff]
    intro p hp
    have h := mem_of_qualifying hp
    exact hfail p h.1 h.2
  · rw [record_all_emittersFull]
    simp only
    rw [List.filterMap_map, length_filterMap_of_all_some, qualifyingParticipants,
      ← List.countP_eq_length_filter]
    intro p hp
    have h := mem_of_qualifying hp
    have hn := hfail p h.1 h.2
    cases hs : start p.identity with
    | ok v => rw [hs] at hn; simp [Except.toOption] at hn
    | error e => simp [Function.comp, hs]

theorem record_all_emitters_all_fail_empty_witness :
    record_all_emitters 1 partsW startFailW = [] ∧
    (record_all_emittersFull 1 partsW startFailW).2.length =
      partsW.countP (fun p => decide (1 ≤ activeTrackCount p)) :=
  record_all_emitters_all_fail_empty 1 partsW startFailW (by decide)

/-- C3: if the room-composite branch of a full-record call fails, the
whole call surfaces that error — the endpoint answers with a 500 — even
when the concurrent fan-out branch succeeded with any list of handles. -/
theorem full_record_room_branch_failure (e : String) (infos : List EgressInfo) :
    full_record (.error e) (.ok infos) = .error e ∧
    full_record_endpoint (.error e) (.ok infos) = .httpError 500 e :=
  ⟨rfl, rfl⟩

/-- C4: a stop-one call whose remote stop fails with the
`failed_precondition` ("already stopped") code returns the matching record
of the full egress list annotated as already finished, and reports 404 when
no record of that list carries the requested identifier. -/
theorem stop_one_already_stopped (eid msg : String) (recs : List EgressInfo) :
    (∀ r, recs.find? (fun x => x.egress_id == eid) = some r →
      stop_recording_endpoint eid (.twirpErr "failed_precondition" msg) recs =
        .ok { info_to_response r with message := some "La grabación ya estaba finalizada" } ∧
      r ∈ recs ∧ r.egress_id = eid) ∧
    ((∀ r ∈ recs, r.egress_id ≠ eid) →
      stop_recording_endpoint eid (.twirpErr "failed_precondition" msg) recs =
        .httpError 404 ("Egress " ++ eid ++ " no encontrado")) := by
  constructor
  · intro r hr
    refine ⟨?_, List.mem_of_find?_eq_some hr, by simpa using List.find?_some hr⟩
    simp [stop_recording_endpoint, hr]
  · intro hnone
    have hfind : recs.find? (fun x => x.egress_id == eid) = none := by
      rw [List.find?_eq_none]
      intro x hx
      simpa using hnone x hx
    simp [stop_recording_endpoint, hfind]

theorem stop_one_already_stopped_witness :
    stop_recording_endpoint "EG_7" (.twirpErr "failed_precondition" "fp") [recW] =
      .ok { info_to_response recW with message := some "La grabación ya estaba finalizada" } ∧
    stop_recording_endpoint "zz" (.twirpErr "failed_precondition" "fp") [recW] =
      .httpError 404 ("Egress " ++ "zz" ++ " no encontrado") :=
  ⟨((stop_one_already_stopped "EG_7" "fp" [recW]).1 recW (by decide)).1,
   (stop_one_already_stopped "zz" "fp" [recW]).2 (by decide)⟩

lemma stop_one_egress_id (f : String → Except String EgressInfo) (e : String) :
    (stop_one f e).egress_id = e := by
  rw [stop_one]
  cases f e <;> rfl

lemma stop_one_error_isSome (f : String → Except String EgressInfo) (e : String) :
    (stop_one f e).error.isSome = (f e).toOption.isNone := by
  rw [stop_one]
  cases f e <;> rfl

lemma stop_one_error_isNone (f : String → Except String EgressInfo) (e : String) :
    (stop_one f e).error.isNone = (f e).toOption.isSome := by
  rw [stop_one]
  cases f e <;> rfl

/-- C5: stop-many over M identifiers (room ids then participant ids) always
returns exactly M entries, entry i carrying identifier i of the combined
input; an entry's error field is populated exactly when that identifier's
stop failed, so with F failures there are F error entries and M−F success
entries. -/
theorem stop_many_parallel_results (room participants : List String)
    (stopOutcome : String → Except String EgressInfo) :
    (stop_recordings_by_ids room participants stopOutcome).length =
      room.length + participants.length ∧
    (∀ i : Nat, ((stop_recordings_by_ids room participants stopOutcome)[i]?.map
        fun r => r.egress_id) = (room ++ participants)[i]?) ∧
    (∀ i : Nat, ((stop_recordings_by_ids room participants stopOutcome)[i]?.map
        fun r => r.error.isSome) =
      ((room ++ participants)[i]?.map fun e => (stopOutcome e).toOption.isNone)) ∧
    (stop_recordings_by_ids room participants stopOutcome).countP
        (fun r => r.error.isSome) =
      (room ++ participants).countP (fun e => (stopOutcome e).toOption.isNone) ∧
    (stop_recordings_by_ids room participants stopOutcome).countP
        (fun r => r.error.isNone) =
      (room.length + participants.length) -
        (room ++ participants).countP (fun e => (stopOutcome e).toOption.isNone) := by
  refine ⟨?_, ?_, ?_, ?_, ?_⟩
  · rw [stop_recordings_by_ids, List.length_map, List.length_append]
  · intro i
    rw [stop_recordings_by_ids, List.getElem?_map, Option.map_map]
    cases (room ++ participants)[i]? with
    | none => rfl
    | some e => simp [Function.comp, stop_one_egress_id]
  · intro i
    rw [stop_recordings_by_ids, List.getElem?_map, Option.map_map]
    cases (room ++ participants)[i]? with
    | none => rfl
    | some e => simp [Function.comp, stop_one_error_isSome]
  · rw [stop_recordings_by_ids, List.countP_map]
    apply List.countP_congr
    intro e he
    simp [Function.comp, stop_one_error_isSome]
  · rw [stop_recordings_by_ids, List.countP_map]
    have hsplit := List.length_eq_countP_add_countP
      (fun e => (stopOutcome e).toOption.isNone) (room ++ participants)
    rw [List.length_append] at hsplit
    have hco : List.countP ((fun r => r.error.isNone) ∘ stop_one stopOutcome)
        (room ++ participants) =
      List.countP (fun e => decide ¬((stopOutcome e).toOption.isNone = true))
        (room ++ participants) := by
      apply List.countP_congr
      intro e he
      simp only [Function.comp_apply, stop_one_error_isNone, decide_eq_true_eq]
      cases hs : (stopOutcome e).toOption <;> simp
    rw [hco]
    omega

/-- C6 counterexample: the single-participant recording embeds the identity
BEFORE the room name, so its file name does not follow the spec's
`{kind-tag}_{room}[_{identity}]_{timestamp}.{ext}` template. -/
theorem participant_filename_order_counterexample :
    record_participantFilename "r" "i" "20250101_120000" =
      "participant_i_r_20250101_120000.mp4" ∧
    specFilenameTemplate "participant" "r" (some "i") "20250101_120000" "mp4" =
      "participant_r_i_20250101_120000.mp4" ∧
    record_participantFilename "r" "i" "20250101_120000" ≠
      specFilenameTemplate "participant" "r" (some "i") "20250101_120000" "mp4" := by
  refine ⟨rfl, rfl, ?_⟩
  decide

/-- C6 (amended): room recordings and the emitter fan-out follow the
`{kind-tag}_{room}[_{identity}]_{timestamp}.{ext}` template, while the
single-participant recording swaps identity and room; the generated
timestamp is the 15-character `YYYYMMDD_HHMMSS` rendering (14 digits plus
one underscore), and a room recording for "studio-1" with no explicit file
name yields `room_studio-1_{timestamp}.mp4`. -/
theorem filename_template_amended (room id ts : String) (y mo d h mi s : Nat)
    (hy : y < 10000) (hmo : mo < 100) (hd : d < 100) (hh : h < 100)
    (hmi : mi < 100) (hs : s < 100) :
    record_roomFilename room none ts = "room_" ++ room ++ "_" ++ ts ++ ".mp4" ∧
    emitterFilename room id ts =
      "participant_" ++ room ++ "_" ++ id ++ "_" ++ ts ++ ".mp4" ∧
    record_participantFilename room id ts =
      "participant_" ++ id ++ "_" ++ room ++ "_" ++ ts ++ ".mp4" ∧
    record_roomFilename "studio-1" none (formatTimestamp y mo d h mi s) =
      "room_studio-1_" ++ formatTimestamp y mo d h mi s ++ ".mp4" ∧
    (formatTimestamp y mo d h mi s).data.countP (fun c => c.isDigit) = 14 ∧
    (formatTimestamp y mo d h mi s).length = 15 := by
  have hy4 : y < 10 ^ 4 := by norm_num; omega
  have hmo2 : mo < 10 ^ 2 := by norm_num; omega
  have hd2 : d < 10 ^ 2 := by norm_num; omega
  have hh2 : h < 10 ^ 2 := by norm_num; omega
  have hmi2 : mi < 10 ^ 2 := by norm_num; omega
  have hs2 : s < 10 ^ 2 := by norm_num; omega
  refine ⟨rfl, rfl, rfl, rfl, ?_, ?_⟩
  · show (padNum 4 y ++ padNum 2 mo ++ padNum 2 d ++ '_' ::
        (padNum 2 h ++ padNum 2 mi ++ padNum 2 s)).countP (fun c => c.isDigit) = 14
    rw [List.countP_append, List.countP_append, List.countP_cons, List.countP_append,
      List.countP_append, List.countP_append]
    rw [padNum_countP (by omega) hy4, padNum_countP (by omega) hmo2,
      padNum_countP (by omega) hd2, padNum_countP (by omega) hh2,
      padNum_countP (by omega) hmi2, padNum_countP (by omega) hs2]
    decide
  · show (padNum 4 y ++ padNum 2 mo ++ padNum 2 d ++ '_' ::
        (padNum 2 h ++ padNum 2 mi ++ padNum 2 s)).length = 15
    rw [List.length_append, List.length_append, List.length_cons, List.length_append,
      List.length_append, List.length_append]
    rw [padNum_length (by omega) hy4, padNum_length (by omega) hmo2,
      padNum_length (by omega) hd2, padNum_length (by omega) hh2,
      padNum_length (by omega) hmi2, padNum_length (by omega) hs2]

theorem filename_template_amended_witness :
    record_roomFilename "studio-1" none (formatTimestamp 2025 10 12 13 14 15) =
      "room_studio-1_" ++ formatTimestamp 2025 10 12 13 14 15 ++ ".mp4" ∧
    (formatTimestamp 2025 10 12 13 14 15).data.countP (fun c => c.isDigit) = 14 :=
  ⟨(filename_template_amended "x" "y" "z" 2025 10 12 13 14 15 (by omega) (by omega)
      (by omega) (by omega) (by omega) (by omega)).2.2.2.1,
   (filename_template_amended "x" "y" "z" 2025 10 12 13 14 15 (by omega) (by omega)
      (by omega) (by omega) (by omega) (by omega)).2.2.2.2.1⟩

/-- C8 counterexample: the collapse is a single left-to-right pass of
`replace("//", "/")`, so a triple separator in the concatenation leaves a
double separator in the computed output path — e.g. the caller-supplied
file name `"//x"` under the fixed `"Rooms"` segment. -/
theorem fileOutput_double_sep_counterexample :
    fileOutputPath (some "Rooms") "//x" = "Rooms//x" ∧
    hasDoubleSlash (fileOutputPath (some "Rooms") "//x").data = true := by
  refine ⟨?_, ?_⟩ <;> decide

/-- C8 (amended): each leftmost double separator of the concatenation is
collapsed once, left to right; when the concatenation contains no run of
three separators, the computed output path contains no double separator. -/
theorem fileOutput_no_double_sep (p f : String) (hp : p ≠ "")
    (h3 : hasTripleSlash (p ++ "/" ++ f).data = false) :
    hasDoubleSlash (fileOutputPath (some p) f).data = false := by
  rw [strCat_data] at h3
  rw [fileOutputPath_data f hp]
  exact hds_collapse_of_no_triple h3

theorem fileOutput_no_double_sep_witness :
    hasDoubleSlash (fileOutputPath (some "Rooms") "/x").data = false :=
  fileOutput_no_double_sep "Rooms" "/x" (by decide) (by decide)

/-- C9 counterexample: two distinct identities that differ only by a
collapsed separator produce identical output paths within one fan-out
batch, so embedding the identity does not make the paths pairwise
distinct. -/
theorem emitter_paths_collision_counterexample :
    (partsSlashC.map fun p => p.identity) = ["a//b", "a/b"] ∧
    qualifyingParticipants 1 partsSlashC = partsSlashC ∧
    record_all_emittersPaths "r" 1 partsSlashC (fun _ => "20250101_000000") =
      ["r/participant_r_a/b_20250101_000000.mp4",
       "r/participant_r_a/b_20250101_000000.mp4"] := by
  refine ⟨?_, ?_, ?_⟩ <;> decide

/-- C9 (amended): within one fan-out batch over a non-empty room name
without separators, the requested output paths are pairwise distinct for
participants with pairwise-distinct separator-free identities, given the
fixed-width separator-free timestamps the clock renders. -/
theorem emitter_fanout_paths_distinct (room : String) (minTracks : Nat)
    (parts : List ParticipantInfo) (tsOf : String → String) (L : Nat)
    (hne : room ≠ "") (hroom : noSlash room.data = true)
    (hids : ∀ p ∈ parts, noSlash p.identity.data = true)
    (hts : ∀ s : String, noSlash (tsOf s).data = true ∧ (tsOf s).data.length = L)
    (hdist : (qualifyingParticipants minTracks parts).Pairwise
      fun p q => p.identity ≠ q.identity) :
    (record_all_emittersPaths room minTracks parts tsOf).Pairwise (· ≠ ·) := by
  rw [record_all_emittersPaths, List.pairwise_map]
  refine List.Pairwise.imp_of_mem ?_ hdist
  intro p q hp hq hpq
  exact emitterPath_inj hne hroom (hids p (mem_of_qualifying hp).1)
    (hids q (mem_of_qualifying hq).1) (hts p.identity).1 (hts q.identity).1
    ((hts p.identity).2.trans (hts q.identity).2.symm) hpq

theorem emitter_fanout_paths_distinct_witness :
    (record_all_emittersPaths "r" 1 partsD (fun _ => "20250101_000000")).Pairwise
      (· ≠ ·) := by
  have h1 : noSlash ("20250101_000000" : String).data = true := by decide
  have h2 : ("20250101_000000" : String).data.length = 15 := by decide
  exact emitter_fanout_paths_distinct "r" 1 partsD (fun _ => "20250101_000000") 15
    (by decide) (by decide) (by decide) (fun _ => ⟨h1, h2⟩) (by decide)

/-- C2 counterexample: the `full/{room}_{timestamp}` segment is
re-interpolated at every `now()` call — once in the room-composite branch
and once per participant — not generated once per call, so when the clock
ticks between branches the two handles land in different storage
folders. -/
theorem full_record_session_folder_counterexample :
    (full_recordPaths "r" 1 partsC2 "20250101_000000" "20250101_000000"
        (fun _ => "20250101_000001") (fun _ => "20250101_000001")).1 =
      "full/r_20250101_000000/room_r_20250101_000000.mp4" ∧
    (full_recordPaths "r" 1 partsC2 "20250101_000000" "20250101_000000"
        (fun _ => "20250101_000001") (fun _ => "20250101_000001")).2 =
      ["full/r_20250101_000001/participant_r_p_20250101_000001.mp4"] ∧
    dirOf "full/r_20250101_000000/room_r_20250101_000000.mp4" ≠
      dirOf "full/r_20250101_000001/participant_r_p_20250101_000001.mp4" := by
  refine ⟨?_, ?_, ?_⟩ <;> decide

/-- C2 (amended): each full-record branch interpolates its own
`full/{room}_{timestamp}` segment from a fresh clock sample; whenever the
samples coincide (all land in the same second), the room-composite path and
every fan-out path sit in the single shared session folder
`full/{room}_{timestamp}`. -/
theorem full_record_same_second_shared_folder (room t : String) (minTracks : Nat)
    (parts : List ParticipantInfo) (hroom : noSlash room.data = true)
    (ht : noSlash t.data = true)
    (hids : ∀ p ∈ parts, noSlash p.identity.data = true) :
    dirOf (record_room2Path room t t) = fullSessionSegment room t ∧
    ∀ q ∈ record_all_emitters2Paths room minTracks parts (fun _ => t) (fun _ => t),
      dirOf q = fullSessionSegment room t := by
  constructor
  · rw [record_room2Path]
    exact full_path_dirOf _ hroom ht (room2Filename_noSlash hroom ht)
  · intro q hq
    rw [record_all_emitters2Paths] at hq
    simp only [List.mem_map] at hq
    obtain ⟨p, hp, rfl⟩ := hq
    rw [emitter2Path]
    exact full_path_dirOf _ hroom ht
      (emitterFilename_noSlash hroom (hids p (mem_of_qualifying hp).1) ht)

theorem full_record_same_second_shared_folder_witness :
    dirOf (record_room2Path "r" "20250101_000000" "20250101_000000") =
      fullSessionSegment "r" "20250101_000000" :=
  (full_record_same_second_shared_folder "r" "20250101_000000" 1 partsC2
    (by decide) (by decide) (by decide)).1

/-- C10 counterexample: an explicitly supplied empty file name is falsy
under Python's `or`, so the source generates the timestamped
`room_{room}_{ts}.mp4` instead of using the supplied name verbatim, and the
resulting path depends on the clock. -/
theorem record_room_empty_filename_counterexample :
    record_roomFilename "r" (some "") "20250101_000000" =
      "room_r_20250101_000000.mp4" ∧
    record_roomFilename "r" (some "") "20250101_000000" ≠ "" ∧
    record_roomPath "r" (some "") "20250101_000000" ≠
      record_roomPath "r" (some "") "20250101_000001" := by
  refine ⟨?_, ?_, ?_⟩ <;> decide

/-- C10 (amended): a room-recording start with an explicit non-empty file
name uses that name verbatim — no timestamp or kind tag is generated, the
path does not depend on the clock — and places it under the fixed
`"Rooms"` segment; an explicit empty name is treated as absent (Python
or-falsiness) and falls back to the generated timestamped name. -/
theorem record_room_explicit_filename (room f ts ts2 : String) (hf : f ≠ "")
    (h1 : hasDoubleSlash f.data = false)
    (h2 : (f.data.head?.any fun d => d == '/') = false) :
    record_roomFilename room (some f) ts = f ∧
    record_roomPath room (some f) ts = record_roomPath room (some f) ts2 ∧
    record_roomPath room (some f) ts = "Rooms/" ++ f := by
  have hname : ∀ t : String, record_roomFilename room (some f) t = f := by
    intro t
    rw [record_roomFilename, Option.getD_some, orElseStr, if_neg hf]
  refine ⟨hname ts, ?_, ?_⟩
  · rw [record_roomPath, record_roomPath, hname ts, hname ts2]
  · rw [record_roomPath, hname ts]
    have hor : orElseStr "Rooms" room = "Rooms" := by
      rw [orElseStr, if_neg (by decide)]
    rw [hor]
    apply String.ext
    rw [fileOutputPath_data_of_no_double f (by decide) ?_]
    · rw [String.data_append]
      have hR : ("Rooms/" : String).data = "Rooms".data ++ ['/'] := rfl
      rw [hR, List.append_assoc, List.singleton_append]
    · rw [hds_append _ (by decide)]
      exact hds_slash_cons_of h1 h2

theorem record_room_explicit_filename_witness :
    record_roomPath "studio" (some "mine.mp4") "t1" = "Rooms/" ++ "mine.mp4" :=
  (record_room_explicit_filename "studio" "mine.mp4" "t1" "t2"
    (by decide) (by decide) (by decide)).2.2

end Oni
